import Mathlib

/-!
Verification development for the German Address Validator widget
(src/components/AddressValidator.tsx plus the debounce hook documented
in AI_USAGE.md).

The widget is a bidirectional locality/postal-code lookup form.  We embed
its state and its two lookup flows as pure transition functions over an
explicit state record; a service response is a list of locality records,
and a settled network round trip is an `Option` of such a list (`none`
models a transport failure: the fetch or the JSON parse throwing).
-/

/-- A locality record as returned by the remote directory service,
from src/types/plz.ts (`PlzEntry`). Extra fields of the service response
are never read by the widget and are omitted. -/
structure PlzEntry where
  name : String
  postalCode : String
deriving Repr, DecidableEq

/-- The service response body: a bare list of records (src/types/plz.ts,
`PlzApiResponse = PlzEntry[]`). -/
abbrev PlzApiResponse := List PlzEntry

/-- The widget's mutable UI state, from the `useState` declarations of
`AddressValidator`.  The `locality`, `postalCode`, `postalCodeOptions`,
`error` and `isDropdown` fields are translated from
src/components/AddressValidator.tsx.

Modelled from the spec: the `success` and `isLoading` fields.  The file
src/hooks and the ui-polish revision of the component are missing from
src/; the spec (and AI_USAGE.md, Session 11) describe a success flag and
a loading flag that are cleared before each request and settled in a
`finally` block, which we model here. -/
structure WidgetState where
  locality : String
  postalCode : String
  postalCodeOptions : List String
  error : String
  success : Bool
  isLoading : Bool
  isDropdown : Bool
deriving Repr, DecidableEq

/-- A network request issued by the widget: one of the two read-only
queries against the remote directory service. -/
inductive Request where
  | byLocality (query : String)
  | byPostalCode (query : String)
deriving Repr, DecidableEq

/-- One insertion step of a JavaScript `Set` built from an array:
an element already present is ignored, a new element is appended. -/
def jsSetInsert (acc : List String) (x : String) : List String :=
  if x ∈ acc then acc else acc ++ [x]

/-- The expression `[...new Set(xs)]` of the locality lookup
(src/components/AddressValidator.tsx, line 33): de-duplication keeping
the first occurrence of each element, preserving first-seen order. -/
def jsSetDedup (l : List String) : List String :=
  l.foldl jsSetInsert []

/-- The state updates shared by the head of both `try` blocks: clear the
error, then (modelled from the spec / AI_USAGE.md Session 11) clear the
success flag and raise the loading flag, all before the request is
issued. -/
def lookupStart (s : WidgetState) : WidgetState :=
  { s with error := "", success := false, isLoading := true }

/-- Modelled from the spec: the `finally` block of each lookup
(AI_USAGE.md Session 11), clearing the loading flag once the request has
settled, regardless of outcome. -/
def settleLoading (s : WidgetState) : WidgetState :=
  { s with isLoading := false }

/-- The response handling of the locality lookup
(src/components/AddressValidator.tsx, lines 32-52): branch on the number
of distinct postal codes in the response; `none` models the `catch`
branch (fetch or parse threw).  The `success := true` update of the
single-code branch is modelled from the spec (AI_USAGE.md Session 11). -/
def applyLocalityOutcome (s : WidgetState) (outcome : Option PlzApiResponse) :
    WidgetState :=
  match outcome with
  | some data =>
    if 0 < data.length then
      let postalCodes := jsSetDedup (data.map PlzEntry.postalCode)
      if postalCodes.length = 1 then
        { s with postalCode := postalCodes.headI
                 isDropdown := false
                 postalCodeOptions := []
                 success := true }
      else
        { s with postalCodeOptions := postalCodes
                 isDropdown := true
                 postalCode := "" }
    else
      { s with error := "No results found for this locality"
               postalCodeOptions := []
               isDropdown := false }
  | none => { s with error := "Failed to fetch locality data" }

/-- A settled run of `fetchByLocality`
(src/components/AddressValidator.tsx, lines 24-53): the pre-request
updates, then the outcome handling, then the loading flag cleared. -/
def fetchByLocality (s : WidgetState) (outcome : Option PlzApiResponse) :
    WidgetState :=
  settleLoading (applyLocalityOutcome (lookupStart s) outcome)

/-- The response handling of the postal-code lookup
(src/components/AddressValidator.tsx, lines 72-81): a non-empty response
populates the locality field with the first record's name; an empty one
reports an invalid postal code; `none` models the `catch` branch.  The
`success := true` update is modelled from the spec (AI_USAGE.md,
Session 11). -/
def applyPostalOutcome (s : WidgetState) (outcome : Option PlzApiResponse) :
    WidgetState :=
  match outcome with
  | some (e :: _) => { s with locality := e.name, success := true }
  | some [] => { s with error := "Invalid postal code" }
  | none => { s with error := "Failed to fetch postal code data" }

/-- A settled run of `fetchByPostalCode`
(src/components/AddressValidator.tsx, lines 64-82). -/
def fetchByPostalCode (s : WidgetState) (outcome : Option PlzApiResponse) :
    WidgetState :=
  settleLoading (applyPostalOutcome (lookupStart s) outcome)

/-- The locality-lookup effect (src/components/AddressValidator.tsx,
lines 17-56): an empty debounced locality clears the options and leaves
dropdown mode without any request; otherwise the lookup runs and issues
one by-locality request. -/
def localityEffect (s : WidgetState) (debouncedLocality : String)
    (outcome : Option PlzApiResponse) : WidgetState × List Request :=
  if debouncedLocality = "" then
    ({ s with postalCodeOptions := [], isDropdown := false }, [])
  else
    (fetchByLocality s outcome, [Request.byLocality debouncedLocality])

/-- The postal-code-lookup effect (src/components/AddressValidator.tsx,
lines 59-85): suppressed when the debounced postal code is empty or the
widget is in dropdown mode; otherwise the lookup runs and issues one
by-postal-code request. -/
def postalCodeEffect (s : WidgetState) (debouncedPostalCode : String)
    (outcome : Option PlzApiResponse) : WidgetState × List Request :=
  if debouncedPostalCode = "" ∨ s.isDropdown then
    (s, [])
  else
    (fetchByPostalCode s outcome, [Request.byPostalCode debouncedPostalCode])

/-- The dropdown selection handler `handlePostalCodeSelect`
(src/components/AddressValidator.tsx, lines 87-91): set the postal-code
field, leave dropdown mode, clear the options; it issues no request.
The `success := true` update is modelled from the spec (AI_USAGE.md,
Session 11). -/
def handlePostalCodeSelect (s : WidgetState) (selectedCode : String) :
    WidgetState × List Request :=
  ({ s with postalCode := selectedCode
            isDropdown := false
            postalCodeOptions := []
            success := true }, [])

/-- A sample widget state used by concrete witnesses. -/
def sampleState : WidgetState :=
  { locality := "Weimar"
    postalCode := "old"
    postalCodeOptions := ["x"]
    error := "stale"
    success := true
    isLoading := false
    isDropdown := false }

/-- A sample widget state in dropdown mode, used by concrete witnesses. -/
def sampleDropdownState : WidgetState :=
  { sampleState with isDropdown := true, postalCodeOptions := ["80331", "80333"] }

/-! ### The debounce primitive

Modelled from the spec: src/hooks/useDebounce.ts is missing from src/;
its code is documented verbatim in AI_USAGE.md (Session 2).  On every
change of the input value a timer of `delay` is armed to publish that
value, and the effect cleanup clears the previously armed timer, so a
timer armed by one change is discarded when the next change arrives
strictly before it fires.  We model an input history as a list of
timestamped values with strictly increasing times, compute the list of
timer firings it produces, and read the debounced value at a time `t` as
the value of the most recent firing at or before `t`. -/

/-- A timestamped input change: at `time`, the raw input value became
`value`. -/
structure TimedInput (α : Type) where
  time : Nat
  value : α
deriving Repr, DecidableEq

/-- The timer firings produced by an input history under delay `D`: the
timer armed by a change fires `D` after it unless the next change
arrives strictly earlier (`clearTimeout` in the effect cleanup); the
timer armed by the last change always fires. -/
def debounceFires {α : Type} (D : Nat) : List (TimedInput α) → List (Nat × α)
  | [] => []
  | [e] => [(e.time + D, e.value)]
  | e :: e2 :: rest =>
    if e.time + D ≤ e2.time then
      (e.time + D, e.value) :: debounceFires D (e2 :: rest)
    else
      debounceFires D (e2 :: rest)

/-- The debounced value at time `t`: the value published by the latest
timer firing at or before `t`, or the initial value when none has fired
yet (`useState(value)` seeds the hook with the initial input). -/
def debouncedAt {α : Type} (init : α) (D : Nat) (events : List (TimedInput α))
    (t : Nat) : α :=
  ((debounceFires D events).filter (fun p => decide (p.1 ≤ t))).foldl
    (fun _ p => p.2) init

/-- Concrete input history used by the C9 witness: three keystrokes, the
last separated from the second by more than the delay. -/
def sampleEvents : List (TimedInput String) :=
  [⟨0, "M"⟩, ⟨300, "Mü"⟩, ⟨2000, "München"⟩]

/-! ### Concrete responses used by witnesses and counterexamples -/

/-- A response resolving to two distinct postal codes (with a repeat). -/
def sampleMultiResponse : PlzApiResponse :=
  [⟨"München", "80331"⟩, ⟨"München", "80333"⟩, ⟨"München", "80331"⟩]

/-- A response resolving to exactly one distinct postal code. -/
def sampleSingleResponse : PlzApiResponse :=
  [⟨"Weimar", "99423"⟩, ⟨"Weimar", "99423"⟩]

/-! ### Properties of the first-seen de-duplication -/

theorem jsSetInsert_mem (acc : List String) (x a : String) :
    a ∈ jsSetInsert acc x ↔ a ∈ acc ∨ a = x := by
  unfold jsSetInsert
  by_cases h : x ∈ acc
  · simp only [if_pos h]
    constructor
    · exact Or.inl
    · rintro (ha | rfl)
      · exact ha
      · exact h
  · simp [if_neg h]

theorem foldl_jsSetInsert_mem (l : List String) :
    ∀ (acc : List String) (a : String),
      a ∈ l.foldl jsSetInsert acc ↔ a ∈ acc ∨ a ∈ l := by
  induction l with
  | nil => intro acc a; simp
  | cons x xs ih =>
    intro acc a
    rw [List.foldl_cons, ih, jsSetInsert_mem]
    simp only [List.mem_cons]
    tauto

theorem jsSetInsert_nodup (acc : List String) (x : String) (h : acc.Nodup) :
    (jsSetInsert acc x).Nodup := by
  unfold jsSetInsert
  by_cases hx : x ∈ acc
  · simpa [if_pos hx] using h
  · rw [if_neg hx]
    simpa [List.nodup_append] using ⟨h, hx⟩

theorem foldl_jsSetInsert_nodup (l : List String) :
    ∀ acc : List String, acc.Nodup → (l.foldl jsSetInsert acc).Nodup := by
  induction l with
  | nil => intro acc h; simpa using h
  | cons x xs ih =>
    intro acc h
    exact ih _ (jsSetInsert_nodup acc x h)

theorem foldl_jsSetInsert_sublist (l : List String) :
    ∀ acc : List String, ∃ t, l.foldl jsSetInsert acc = acc ++ t ∧ List.Sublist t l := by
  induction l with
  | nil => intro acc; exact ⟨[], by simp, List.Sublist.refl _⟩
  | cons x xs ih =>
    intro acc
    rw [List.foldl_cons]
    unfold jsSetInsert
    by_cases hx : x ∈ acc
    · rw [if_pos hx]
      obtain ⟨t, ht, hsub⟩ := ih acc
      exact ⟨t, ht, hsub.cons x⟩
    · rw [if_neg hx]
      obtain ⟨t, ht, hsub⟩ := ih (acc ++ [x])
      exact ⟨x :: t, by simpa using ht, hsub.cons₂ x⟩

theorem jsSetDedup_mem (l : List String) (a : String) :
    a ∈ jsSetDedup l ↔ a ∈ l := by
  unfold jsSetDedup
  rw [foldl_jsSetInsert_mem]
  simp

theorem jsSetDedup_nodup (l : List String) : (jsSetDedup l).Nodup :=
  foldl_jsSetInsert_nodup l [] List.nodup_nil

theorem jsSetDedup_sublist (l : List String) : List.Sublist (jsSetDedup l) l := by
  obtain ⟨t, ht, hsub⟩ := foldl_jsSetInsert_sublist l []
  unfold jsSetDedup
  rw [ht]
  simpa using hsub

theorem jsSetDedup_nil : jsSetDedup [] = [] := rfl

theorem jsSetDedup_ne_nil (l : List String) (h : l ≠ []) : jsSetDedup l ≠ [] := by
  obtain ⟨a, ha⟩ := List.exists_mem_of_ne_nil l h
  intro hcon
  have : a ∈ jsSetDedup l := (jsSetDedup_mem l a).mpr ha
  rw [hcon] at this
  exact List.not_mem_nil a this

theorem debounceFires_ne_nil {α : Type} (D : Nat) :
    ∀ events : List (TimedInput α), events ≠ [] → debounceFires D events ≠ [] := by
  intro events
  induction events with
  | nil => intro h; exact absurd rfl h
  | cons e rest ih =>
    intro _
    cases rest with
    | nil => simp [debounceFires]
    | cons e2 rest2 =>
      rw [debounceFires]
      by_cases hle : e.time + D ≤ e2.time
      · simp [hle]
      · simpa [hle] using ih (by simp)

theorem debounceFires_getLast {α : Type} (D : Nat) :
    ∀ (events : List (TimedInput α)) (e : TimedInput α),
      events.getLast? = some e →
      (debounceFires D events).getLast? = some (e.time + D, e.value) := by
  intro events
  induction events with
  | nil => intro e h; simp at h
  | cons e0 rest ih =>
    intro e h
    cases rest with
    | nil =>
      simp at h
      subst h
      simp [debounceFires]
    | cons e2 rest2 =>
      rw [List.getLast?_cons_cons] at h
      have htail := ih e h
      obtain ⟨y, ys, hys⟩ :=
        List.exists_cons_of_ne_nil (debounceFires_ne_nil D (e2 :: rest2) (by simp))
      rw [debounceFires]
      by_cases hle : e0.time + D ≤ e2.time
      · rw [if_pos hle, hys]
        rw [hys] at htail
        rw [List.getLast?_cons_cons]
        exact htail
      · rw [if_neg hle]
        exact htail

theorem debounceFires_mem_spec {α : Type} (D : Nat) :
    ∀ events : List (TimedInput α),
      events.Pairwise (fun a b => a.time < b.time) →
      ∀ u v, (u, v) ∈ debounceFires D events →
        ∃ e, e ∈ events ∧ u = e.time + D ∧ v = e.value ∧
          ∀ e2 ∈ events, e.time < e2.time → u ≤ e2.time := by
  intro events
  induction events with
  | nil => intro _ u v h; simp [debounceFires] at h
  | cons e0 rest ih =>
    intro hp u v hmem
    cases rest with
    | nil =>
      simp [debounceFires] at hmem
      obtain ⟨hu, hv⟩ := hmem
      refine ⟨e0, by simp, hu, hv, ?_⟩
      intro e2 he2 hlt
      simp at he2
      subst he2
      exact absurd hlt (lt_irrefl _)
    | cons e2 rest2 =>
      have hp01 : e0.time < e2.time := (List.pairwise_cons.mp hp).1 e2 (by simp)
      have hptail := (List.pairwise_cons.mp hp).2
      have hlift : ∀ e' ∈ (e2 :: rest2), e2.time ≤ e'.time := by
        intro e' he'
        rcases List.mem_cons.mp he' with h | h
        · exact h ▸ le_refl _
        · exact le_of_lt ((List.pairwise_cons.mp hptail).1 e' h)
      rw [debounceFires] at hmem
      by_cases hle : e0.time + D ≤ e2.time
      · rw [if_pos hle] at hmem
        rcases List.mem_cons.mp hmem with hhd | htl
        · have hu : u = e0.time + D := congrArg Prod.fst hhd
          have hv : v = e0.value := congrArg Prod.snd hhd
          refine ⟨e0, by simp, hu, hv, ?_⟩
          intro e' he' hlt
          rcases List.mem_cons.mp he' with h | h
          · subst h; exact absurd hlt (lt_irrefl _)
          · exact hu ▸ le_trans hle (hlift e' h)
        · obtain ⟨eF, heF, hu, hv, hcond⟩ := ih hptail u v htl
          refine ⟨eF, List.mem_cons_of_mem _ heF, hu, hv, ?_⟩
          intro e' he' hlt
          rcases List.mem_cons.mp he' with h | h
          · have h0F : e0.time < eF.time := lt_of_lt_of_le hp01 (hlift eF heF)
            rw [h] at hlt
            exact absurd hlt (lt_asymm h0F)
          · exact hcond e' h hlt
      · rw [if_neg hle] at hmem
        obtain ⟨eF, heF, hu, hv, hcond⟩ := ih hptail u v hmem
        refine ⟨eF, List.mem_cons_of_mem _ heF, hu, hv, ?_⟩
        intro e' he' hlt
        rcases List.mem_cons.mp he' with h | h
        · have h0F : e0.time < eF.time := lt_of_lt_of_le hp01 (hlift eF heF)
          rw [h] at hlt
          exact absurd hlt (lt_asymm h0F)
        · exact hcond e' h hlt

theorem pairwise_time_inj {α : Type} :
    ∀ events : List (TimedInput α),
      events.Pairwise (fun a b => a.time < b.time) →
      ∀ a ∈ events, ∀ b ∈ events, a.time = b.time → a = b := by
  intro events
  induction events with
  | nil => intro _ a ha; simp at ha
  | cons x xs ih =>
    intro hp a ha b hb heq
    have hx := (List.pairwise_cons.mp hp).1
    have hxs := (List.pairwise_cons.mp hp).2
    rcases List.mem_cons.mp ha with rfl | ha'
    · rcases List.mem_cons.mp hb with rfl | hb'
      · rfl
      · exact absurd heq (ne_of_lt (hx b hb'))
    · rcases List.mem_cons.mp hb with rfl | hb'
      · exact absurd heq.symm (ne_of_lt (hx a ha'))
      · exact ih hxs a ha' b hb' heq

theorem pairwise_time_le_getLast {α : Type} :
    ∀ events : List (TimedInput α),
      events.Pairwise (fun a b => a.time < b.time) →
      ∀ b, events.getLast? = some b → ∀ e ∈ events, e.time ≤ b.time := by
  intro events
  induction events with
  | nil => intro _ b hb; simp at hb
  | cons x xs ih =>
    intro hp b hb e he
    cases xs with
    | nil =>
      simp at hb he
      subst hb
      subst he
      exact le_refl _
    | cons y ys =>
      rw [List.getLast?_cons_cons] at hb
      have hxs := (List.pairwise_cons.mp hp).2
      rcases List.mem_cons.mp he with rfl | he'
      · have hbmem : b ∈ y :: ys := by
          have := List.getLast?_eq_getLast (y :: ys) (by simp)
          rw [this] at hb
          exact (Option.some_inj.mp hb) ▸ List.getLast_mem (by simp)
        exact le_of_lt ((List.pairwise_cons.mp hp).1 b hbmem)
      · exact ih hxs b hb e he'

theorem foldl_snd_getLast {α : Type} :
    ∀ (l : List (Nat × α)) (init : α) (u : Nat) (v : α),
      l.getLast? = some (u, v) → l.foldl (fun _ p => p.2) init = v := by
  intro l
  induction l with
  | nil => intro init u v h; simp at h
  | cons a l2 ih =>
    intro init u v h
    cases l2 with
    | nil =>
      simp at h ⊢
      rw [h]
    | cons b l3 =>
      rw [List.getLast?_cons_cons] at h
      rw [List.foldl_cons]
      exact ih _ u v h

/-! ### Claim theorems -/

/-- C1: a locality lookup whose response resolves to more than one
distinct postal code ends with the options list equal to the
de-duplicated, order-preserving (first-seen) set of postal codes of the
response, dropdown mode on, and the postal-code field cleared; the
options are indeed duplicate-free, a subsequence of the response's
postal codes, and contain exactly the response's postal codes. -/
theorem fetchByLocality_multi_distinct (s : WidgetState) (data : PlzApiResponse)
    (h : 2 ≤ (jsSetDedup (data.map PlzEntry.postalCode)).length) :
    (fetchByLocality s (some data)).postalCodeOptions
        = jsSetDedup (data.map PlzEntry.postalCode) ∧
    (fetchByLocality s (some data)).isDropdown = true ∧
    (fetchByLocality s (some data)).postalCode = "" ∧
    (fetchByLocality s (some data)).postalCodeOptions.Nodup ∧
    List.Sublist (fetchByLocality s (some data)).postalCodeOptions
        (data.map PlzEntry.postalCode) ∧
    (∀ c, c ∈ (fetchByLocality s (some data)).postalCodeOptions
        ↔ c ∈ data.map PlzEntry.postalCode) := by
  have hne : data ≠ [] := by
    intro hcon
    subst hcon
    simp [jsSetDedup] at h
  have hpos : 0 < data.length := List.length_pos.mpr hne
  have h1 : ¬ (jsSetDedup (data.map PlzEntry.postalCode)).length = 1 := by omega
  refine ⟨?_, ?_, ?_, ?_, ?_, ?_⟩ <;>
    simp [fetchByLocality, applyLocalityOutcome, lookupStart, settleLoading, hpos, h1,
      jsSetDedup_nodup, jsSetDedup_sublist, jsSetDedup_mem]

/-- Witness for C1 at a concrete multi-code response. -/
theorem fetchByLocality_multi_distinct_witness :
    (fetchByLocality sampleState (some sampleMultiResponse)).postalCodeOptions
        = ["80331", "80333"] ∧
    (fetchByLocality sampleState (some sampleMultiResponse)).isDropdown = true ∧
    (fetchByLocality sampleState (some sampleMultiResponse)).postalCode = "" :=
  ⟨by decide,
   (fetchByLocality_multi_distinct sampleState sampleMultiResponse (by decide)).2.1,
   (fetchByLocality_multi_distinct sampleState sampleMultiResponse (by decide)).2.2.1⟩

/-- C2: a locality lookup whose non-empty response resolves to exactly
one distinct postal code ends with the postal-code field populated with
that code, single-input mode (empty options), and success reported. -/
theorem fetchByLocality_single_code (s : WidgetState) (data : PlzApiResponse)
    (c : String) (h : jsSetDedup (data.map PlzEntry.postalCode) = [c]) :
    (fetchByLocality s (some data)).postalCode = c ∧
    (fetchByLocality s (some data)).isDropdown = false ∧
    (fetchByLocality s (some data)).postalCodeOptions = [] ∧
    (fetchByLocality s (some data)).success = true := by
  have hne : data ≠ [] := by
    intro hcon
    subst hcon
    simp [jsSetDedup] at h
  have hpos : 0 < data.length := List.length_pos.mpr hne
  refine ⟨?_, ?_, ?_, ?_⟩ <;>
    simp [fetchByLocality, applyLocalityOutcome, lookupStart, settleLoading, hpos, h]

/-- Witness for C2 at a concrete single-code response. -/
theorem fetchByLocality_single_code_witness :
    jsSetDedup (sampleSingleResponse.map PlzEntry.postalCode) = ["99423"] ∧
    ((fetchByLocality sampleState (some sampleSingleResponse)).postalCode = "99423" ∧
     (fetchByLocality sampleState (some sampleSingleResponse)).isDropdown = false ∧
     (fetchByLocality sampleState (some sampleSingleResponse)).postalCodeOptions = [] ∧
     (fetchByLocality sampleState (some sampleSingleResponse)).success = true) :=
  ⟨by decide,
   fetchByLocality_single_code sampleState sampleSingleResponse "99423" (by decide)⟩

/-- C3: selecting a dropdown option sets the postal-code field to the
selected value, switches back to single-input mode, clears the options,
reports success, and issues no network request. -/
theorem handlePostalCodeSelect_spec (s : WidgetState) (code : String) :
    (handlePostalCodeSelect s code).1.postalCode = code ∧
    (handlePostalCodeSelect s code).1.isDropdown = false ∧
    (handlePostalCodeSelect s code).1.postalCodeOptions = [] ∧
    (handlePostalCodeSelect s code).1.success = true ∧
    (handlePostalCodeSelect s code).2 = [] :=
  ⟨rfl, rfl, rfl, rfl, rfl⟩

/-- C4: both lookups clear the prior error and success flag before the
request is issued (the state at request time is `lookupStart s`), and
whatever the outcome — non-empty response, empty response, or transport
failure — the loading flag is cleared once the request settles. -/
theorem lookups_clear_flags_and_settle (s : WidgetState) :
    (lookupStart s).error = "" ∧
    (lookupStart s).success = false ∧
    (∀ o, fetchByLocality s o = settleLoading (applyLocalityOutcome (lookupStart s) o)) ∧
    (∀ o, fetchByPostalCode s o = settleLoading (applyPostalOutcome (lookupStart s) o)) ∧
    (∀ o, (fetchByLocality s o).isLoading = false) ∧
    (∀ o, (fetchByPostalCode s o).isLoading = false) :=
  ⟨rfl, rfl, fun _ => rfl, fun _ => rfl, fun _ => rfl, fun _ => rfl⟩

/-- C5 counterexample: the error message of an empty locality lookup is
not the claimed all-lowercase string; the code capitalizes it. -/
theorem fetchByLocality_empty_message_cex :
    ¬ ((fetchByLocality sampleState (some [])).error
        = "no results found for this locality") := by
  decide

/-- C5 (amended): a locality lookup whose response is empty reports the
error "No results found for this locality", clears the options list, and
leaves single-input mode. -/
theorem fetchByLocality_empty_result (s : WidgetState) :
    (fetchByLocality s (some [])).error = "No results found for this locality" ∧
    (fetchByLocality s (some [])).postalCodeOptions = [] ∧
    (fetchByLocality s (some [])).isDropdown = false :=
  ⟨rfl, rfl, rfl⟩

/-- C6: a postal-code lookup in single-input mode with a non-empty
debounced value and a non-empty response sets the locality field to the
first record's name and reports success. -/
theorem postalCodeEffect_nonempty (s : WidgetState) (q : String) (e : PlzEntry)
    (rest : List PlzEntry) (hq : q ≠ "") (hm : s.isDropdown = false) :
    (postalCodeEffect s q (some (e :: rest))).1.locality = e.name ∧
    (postalCodeEffect s q (some (e :: rest))).1.success = true := by
  simp [postalCodeEffect, hq, hm, fetchByPostalCode, applyPostalOutcome,
    lookupStart, settleLoading]

/-- Witness for C6 at a concrete postal-code query. -/
theorem postalCodeEffect_nonempty_witness :
    ("10115" ≠ "" ∧ sampleState.isDropdown = false) ∧
    ((postalCodeEffect sampleState "10115"
        (some [⟨"Berlin", "10115"⟩])).1.locality = "Berlin" ∧
     (postalCodeEffect sampleState "10115"
        (some [⟨"Berlin", "10115"⟩])).1.success = true) :=
  ⟨⟨by decide, by decide⟩,
   postalCodeEffect_nonempty sampleState "10115" ⟨"Berlin", "10115"⟩ []
     (by decide) (by decide)⟩

/-- C7: while in dropdown mode the postal-code lookup never fires (the
state is untouched and no request is issued), whatever residual value
the debounced postal-code field holds; a request is issued exactly when
the debounced value is non-empty and the mode is single-input. -/
theorem postalCodeEffect_gate (s : WidgetState) (q : String)
    (o : Option PlzApiResponse) :
    (s.isDropdown = true → postalCodeEffect s q o = (s, [])) ∧
    ((postalCodeEffect s q o).2 ≠ [] ↔ (q ≠ "" ∧ s.isDropdown = false)) := by
  constructor
  · intro hd
    simp [postalCodeEffect, hd]
  · by_cases hq : q = ""
    · simp [postalCodeEffect, hq]
    · by_cases hd : s.isDropdown = true
      · simp [postalCodeEffect, hq, hd]
      · simp [postalCodeEffect, hq, hd, Bool.not_eq_true] at *

/-- Witness for C7: a dropdown-mode state with a residual postal-code
value triggers no lookup. -/
theorem postalCodeEffect_gate_witness :
    postalCodeEffect sampleDropdownState "10115" none = (sampleDropdownState, []) :=
  (postalCodeEffect_gate sampleDropdownState "10115" none).1 (by rfl)

/-- C8 counterexample: the error message of an empty postal-code lookup
is not the claimed all-lowercase string; the code capitalizes it. -/
theorem fetchByPostalCode_empty_message_cex :
    ¬ ((fetchByPostalCode sampleState (some [])).error = "invalid postal code") := by
  decide

/-- C8 (amended): a postal-code lookup whose response is empty reports
the error "Invalid postal code". -/
theorem fetchByPostalCode_empty_result (s : WidgetState) :
    (fetchByPostalCode s (some [])).error = "Invalid postal code" :=
  rfl

/-- C10: a transport failure in either direction sets only the
direction's error message; the locality field, the postal-code field,
the mode flag and the options list keep their prior values. -/
theorem transport_failure_only_error (s : WidgetState) :
    (fetchByLocality s none).error = "Failed to fetch locality data" ∧
    (fetchByLocality s none).locality = s.locality ∧
    (fetchByLocality s none).postalCode = s.postalCode ∧
    (fetchByLocality s none).isDropdown = s.isDropdown ∧
    (fetchByLocality s none).postalCodeOptions = s.postalCodeOptions ∧
    (fetchByPostalCode s none).error = "Failed to fetch postal code data" ∧
    (fetchByPostalCode s none).locality = s.locality ∧
    (fetchByPostalCode s none).postalCode = s.postalCode ∧
    (fetchByPostalCode s none).isDropdown = s.isDropdown ∧
    (fetchByPostalCode s none).postalCodeOptions = s.postalCodeOptions :=
  ⟨rfl, rfl, rfl, rfl, rfl, rfl, rfl, rfl, rfl, rfl⟩

/-- C9: for every delay `D` and every (strictly time-ordered) input
history, (1) once at least `D` time has elapsed since the last input
change the debounced value equals the last input value; (2) every
published update stems from some input change, becomes visible exactly
`D` after it, and no other change intervenes before it fires; (3) a
change followed by another change strictly before `D` has elapsed has
its pending update discarded: it never fires. -/
theorem useDebounce_contract {α : Type} (init : α) (D : Nat)
    (events : List (TimedInput α))
    (hp : events.Pairwise (fun a b => a.time < b.time)) :
    (∀ elast, events.getLast? = some elast →
      ∀ t, elast.time + D ≤ t → debouncedAt init D events t = elast.value) ∧
    (∀ u v, (u, v) ∈ debounceFires D events →
      ∃ e, e ∈ events ∧ u = e.time + D ∧ v = e.value ∧
        ∀ e2 ∈ events, e.time < e2.time → u ≤ e2.time) ∧
    (∀ pre e e2 post, events = pre ++ e :: e2 :: post → e2.time < e.time + D →
      (e.time + D, e.value) ∉ debounceFires D events) := by
  refine ⟨?_, debounceFires_mem_spec D events hp, ?_⟩
  · intro elast hlast t ht
    have hfilter :
        (debounceFires D events).filter (fun p => decide (p.1 ≤ t))
          = debounceFires D events := by
      apply List.filter_eq_self.mpr
      intro p hpmem
      obtain ⟨e, he, hu, _, _⟩ :=
        debounceFires_mem_spec D events hp p.1 p.2 (by simpa using hpmem)
      have hle : e.time ≤ elast.time :=
        pairwise_time_le_getLast events hp elast hlast e he
      have hpt : p.1 ≤ t := by omega
      exact decide_eq_true hpt
    unfold debouncedAt
    rw [hfilter]
    exact foldl_snd_getLast _ init _ _ (debounceFires_getLast D events elast hlast)
  · intro pre e e2 post hsplit hlt hmem
    obtain ⟨eF, heF, hu, _, hcond⟩ :=
      debounceFires_mem_spec D events hp _ _ hmem
    have htime : e.time = eF.time := by omega
    have hemem : e ∈ events := by
      rw [hsplit]
      exact List.mem_append_right _ (by simp)
    have heq : e = eF := pairwise_time_inj events hp e hemem eF heF htime
    have he2mem : e2 ∈ events := by
      rw [hsplit]
      exact List.mem_append_right _ (by simp)
    have hp2 : (e :: e2 :: post).Pairwise (fun a b => a.time < b.time) :=
      (List.pairwise_append.mp (hsplit ▸ hp)).2.1
    have h12 : e.time < e2.time := (List.pairwise_cons.mp hp2).1 e2 (by simp)
    have hbound := hcond e2 he2mem (heq ▸ h12)
    omega

/-- Witness for C9 at the concrete history with the 1000 ms delay. -/
theorem useDebounce_contract_witness :
    debouncedAt "" 1000 sampleEvents 3000 = "München" :=
  (useDebounce_contract "" 1000 sampleEvents (by decide)).1
    ⟨2000, "München"⟩ (by rfl) 3000 (by decide)
